import Mathlib

/-!
Verification development for the fms-fsdp muP coordinate-search repository.

Embedded code:
* `fms_fsdp/utils/train_utils.py`, function `train` (the per-trial training
  loop with running statistics, periodic collective reduction, divergence
  guard and final return expression);
* `main_training.py`, function `run` (the `.item()` conversion applied to
  `train`'s result), the closure `set_mups` (derivation of a scaled trial
  configuration from a base configuration) and the greedy coordinate-search
  driver in `main` (baseline evaluation and the per-sign probe/accept step).

Modelling conventions:
* Python floats are rationals extended with a NaN element (`PyNum`); every
  comparison against NaN is false, and NaN propagates through addition and
  division, as in IEEE arithmetic restricted to the values these fragments
  produce (reduced step counts are positive at every reduction, so the
  embedded code never divides by zero and never produces an infinity).
* Dynamically typed Python values that flow into `torch.isnan` and `.item()`
  are modelled by `PyVal` (plain int, plain float, 0-dim tensor); the two
  fallible operations return `Except PyErr _` exactly where CPython/PyTorch
  raise `TypeError` / `AttributeError`.
* External collaborators enter as oracle parameters: the data loader is a
  list of per-step (loss, gradient-norm) contributions, the collective
  reduction adds an oracle-supplied peer contribution per boundary, and the
  wall clock is an oracle giving the elapsed time read at each boundary.
  A training trial seen from the coordinate search is an oracle from the
  candidate exponent vector to the returned loss.
* The integer step counter of the running statistics is held as `ℕ` (in the
  code it is a float tensor entry that is only ever incremented by 1 from 0
  and reset to 0, so its values are exactly the naturals).
-/

namespace FmsFsdp

/-- Python float value: a rational number or the IEEE not-a-number element. -/
inductive PyNum where
  | nan : PyNum
  | val : ℚ → PyNum
  deriving DecidableEq

/-- NaN test on the float model (`torch.isnan` on a 0-dim tensor value). -/
def PyNum.isNan : PyNum → Bool
  | .nan => true
  | .val _ => false

/-- Float addition: NaN propagates through `+=` accumulation. -/
def PyNum.add : PyNum → PyNum → PyNum
  | .nan, _ => .nan
  | .val _, .nan => .nan
  | .val a, .val b => .val (a + b)

/-- Float comparison `x > q`: every comparison against NaN is false. -/
def PyNum.gtQ : PyNum → ℚ → Bool
  | .nan, _ => false
  | .val a, q => decide (q < a)

/-- Dynamically typed Python value as it flows through `train`'s final
return expression and `run`'s `.item()` call: a plain int, a plain float,
or a 0-dim torch tensor holding a float. -/
inductive PyVal where
  | pyInt : ℤ → PyVal
  | pyFloat : PyNum → PyVal
  | tensor : PyNum → PyVal
  deriving DecidableEq

/-- Exceptions raised by the embedded fragments. -/
inductive PyErr where
  | attributeError : PyErr
  | typeError : PyErr
  deriving DecidableEq

/-- Python attribute access `.item()`: defined on a 0-dim tensor (returning
a plain float); a plain int or float has no `item` attribute, so CPython
raises `AttributeError`. -/
def item : PyVal → Except PyErr PyVal
  | .tensor x => .ok (.pyFloat x)
  | .pyInt _ => .error .attributeError
  | .pyFloat _ => .error .attributeError

/-- `torch.isnan`: requires a tensor argument; on a plain Python int or
float PyTorch raises `TypeError`. -/
def torch_isnan : PyVal → Except PyErr Bool
  | .tensor x => .ok x.isNan
  | .pyInt _ => .error .typeError
  | .pyFloat _ => .error .typeError

/-- Final return expression of `train` (train_utils.py line 115):
`return train_loss.item() if not torch.isnan(train_loss) else 100`.
The condition is evaluated first; if it raises, the raise propagates. -/
def trainReturn (train_loss : PyVal) : Except PyErr PyVal :=
  match torch_isnan train_loss with
  | .error e => .error e
  | .ok true => .ok (.pyInt 100)
  | .ok false => item train_loss

/-- The `.item()` conversion `run` applies to `train`'s result
(main_training.py line 174-186: `return train(...).item()`). -/
def run_item (res : Except PyErr PyVal) : Except PyErr PyVal :=
  match res with
  | .error e => .error e
  | .ok v => item v

/-- The local 3-element running-statistics tensor `ddp_stats`:
summed loss, summed clipped gradient norm, and the step count. -/
structure Stats where
  loss : PyNum
  gnorm : PyNum
  count : ℕ
  deriving DecidableEq

/-- The all-zero statistics value (`torch.zeros(3)` / `ddp_stats.zero_()`). -/
def Stats.zero : Stats := ⟨.val 0, .val 0, 0⟩

/-- Elementwise sum, as performed by `dist.all_reduce(.., SUM)` between the
local statistics and the summed contribution of the peer workers. -/
def Stats.add (a b : Stats) : Stats :=
  ⟨a.loss.add b.loss, a.gnorm.add b.gnorm, a.count + b.count⟩

/-- Reduced mean loss `train_loss = ddp_stats[0] / ddp_stats[2]` computed
from the (already reduced) statistics vector. -/
def reducedMean (s : Stats) : PyNum :=
  match s.loss with
  | .nan => .nan
  | .val a => .val (a / (s.count : ℚ))

/-- Condition of the divergence guard at train_utils.py line 96:
`torch.isnan(train_loss) or train_loss > 6`. -/
def divergenceBad (m : PyNum) : Bool := m.isNan || m.gtQ 6

/-- Python `int(...)` applied to a float: truncation toward zero. -/
def pyTrunc (q : ℚ) : ℤ := if 0 ≤ q then ⌊q⌋ else ⌈q⌉

/-- Throughput figure computed by the training loop (train_utils.py lines
81-83): `int(cfg.batch_size * cfg.seq_length / current_step_time)`. -/
def current_throughput (batch_size seq_length : ℕ) (current_step_time : ℚ) : ℤ :=
  pyTrunc ((batch_size * seq_length : ℚ) / current_step_time)

/-- Throughput formula as the specification states it: tokens processed per
unit time using `batch_size * seq_length * world_size`.  This definition
follows the spec's words and exists only to be compared against
`current_throughput`, which is the code's formula. -/
def spec_throughput (batch_size seq_length world_size : ℕ) (step_time : ℚ) : ℤ :=
  pyTrunc ((batch_size * seq_length * world_size : ℕ) / (step_time : ℚ))

/-- Configuration record (the fields of `train_config` consumed by the
embedded fragments: loop bounds, per-batch shape, generic hyperparameters,
and the six named muP scaling fields together with the search controls). -/
structure TrainConfig where
  num_steps : ℕ
  report_interval : ℕ
  batch_size : ℕ
  seq_length : ℕ
  learning_rate : ℝ
  grad_clip_thresh : ℝ
  seed : ℕ
  mup_explore_range : ℝ
  mup_search_steps : ℕ
  mup_emb_scale : ℝ
  mup_head_scale : ℝ
  mup_ffn_init : ℝ
  mup_attn_init : ℝ
  mup_attn_temp : ℝ
  mup_lr_dscale : ℝ

/-- The six muP parameter names of the `mup_params` list in
`main_training.py`, as an enumerated key set. -/
inductive MupKey where
  | emb_scale : MupKey
  | head_scale : MupKey
  | ffn_init : MupKey
  | attn_init : MupKey
  | attn_temp : MupKey
  | lr_dscale : MupKey
  deriving DecidableEq

/-- The `mup_params` list, in declared order. -/
def mup_params : List MupKey :=
  [.emb_scale, .head_scale, .ffn_init, .attn_init, .attn_temp, .lr_dscale]

/-- `getattr(cfg, k)` for the six muP field names. -/
def getMup (cfg : TrainConfig) : MupKey → ℝ
  | .emb_scale => cfg.mup_emb_scale
  | .head_scale => cfg.mup_head_scale
  | .ffn_init => cfg.mup_ffn_init
  | .attn_init => cfg.mup_attn_init
  | .attn_temp => cfg.mup_attn_temp
  | .lr_dscale => cfg.mup_lr_dscale

/-- `setattr(cfg, k, x)` for the six muP field names. -/
def setMupAttr (cfg : TrainConfig) : MupKey → ℝ → TrainConfig
  | .emb_scale, x => { cfg with mup_emb_scale := x }
  | .head_scale, x => { cfg with mup_head_scale := x }
  | .ffn_init, x => { cfg with mup_ffn_init := x }
  | .attn_init, x => { cfg with mup_attn_init := x }
  | .attn_temp, x => { cfg with mup_attn_temp := x }
  | .lr_dscale, x => { cfg with mup_lr_dscale := x }

/-- The Python store visible inside `set_mups`: the caller's base
configuration object `cfg` and the fresh object `new_cfg` produced by
`deepcopy(cfg)`.  The `setattr` loop only ever writes to `new_cfg`. -/
structure PyStore where
  cfg : TrainConfig
  new_cfg : TrainConfig

/-- The `for k, v in zip(mup_k, mup_v)` loop body of `set_mups`:
`setattr(new_cfg, k, getattr(cfg, k) * 2**(v * explore_ratio))`.
Reads come from the base object in the store, writes go to the copy. -/
noncomputable def set_mups_loop (explore_ratio : ℝ) (mup_v : MupKey → ℝ) :
    List MupKey → PyStore → PyStore
  | [], st => st
  | k :: ks, st =>
      set_mups_loop explore_ratio mup_v ks
        { st with new_cfg :=
            setMupAttr st.new_cfg k (getMup st.cfg k * (2 : ℝ) ^ (mup_v k * explore_ratio)) }

/-- The `set_mups` closure of `main_training.py` lines 234-239:
deep-copy the base configuration, then scale each of the six muP fields of
the copy by `2**(v * explore_ratio)`.  Returns the final store (base object
and derived copy). -/
noncomputable def set_mups (explore_ratio : ℝ) (mup_v : MupKey → ℝ) (cfg : TrainConfig) :
    PyStore :=
  set_mups_loop explore_ratio mup_v mup_params ⟨cfg, cfg⟩

/-- One reduction event at a reporting boundary: the global step index,
the local statistics immediately before `dist.all_reduce`, the reduced mean
loss assigned to `train_loss`, the computed throughput figure, and the
local statistics immediately after `ddp_stats.zero_()`. -/
structure Reduction where
  idx : ℕ
  pre : Stats
  mean : PyNum
  throughput : ℤ
  post : Stats
  deriving DecidableEq

/-- Why the training loop ended: step budget exhausted (`batch_idx >
cfg.num_steps`), the divergence guard fired, or the data iterator ran out. -/
inductive TermCause where
  | budget : TermCause
  | diverged : TermCause
  | exhausted : TermCause
  deriving DecidableEq

/-- Observable outcome of one `train` execution: the step indices at which
`optimizer.step()` ran, the reduction events in order, the cause of
termination, and the final value of the `train_loss` variable. -/
structure TrainResult where
  optSteps : List ℕ
  reductions : List Reduction
  cause : TermCause
  train_loss : PyVal
  deriving DecidableEq

/-- Oracles for the external world: `peers n` is the summed contribution of
the other workers to the all-reduce at boundary step `n`, and `elapsed n`
is the wall-clock time `time.time() - start` read at boundary step `n`. -/
structure TrainEnv where
  peers : ℕ → Stats
  elapsed : ℕ → ℚ

/-- One step's statistics accumulation (train_utils.py lines 55, 59, 60):
`ddp_stats[0] += loss.item(); ddp_stats[1] += norm; ddp_stats[2] += 1`. -/
def stAcc (st : Stats) (lossv gnormv : PyNum) : Stats :=
  ⟨st.loss.add lossv, st.gnorm.add gnormv, st.count + 1⟩

/-- The reduction event produced at boundary step `idx` from pre-reduction
local statistics `st1` (train_utils.py lines 66-95): all-reduce with the
peer contribution, reduced mean loss, throughput figure, reset to zero. -/
def mkRed (cfg : TrainConfig) (env : TrainEnv) (idx : ℕ) (st1 : Stats) : Reduction :=
  { idx := idx, pre := st1, mean := reducedMean (st1.add (env.peers idx)),
    throughput := current_throughput cfg.batch_size cfg.seq_length
      (env.elapsed idx / (cfg.report_interval : ℚ)),
    post := Stats.zero }

/-- The `for batch_idx, (input, label) in enumerate(train_loader, start=
start_step+1)` loop of `train` (train_utils.py lines 42-97).  `data` is the
remaining batches, each contributing a per-step loss and clipped gradient
norm; `idx` is the current `batch_idx`; `st` is the current `ddp_stats`;
`tl` is the current `train_loss` variable. -/
def trainLoop (cfg : TrainConfig) (env : TrainEnv) :
    List (PyNum × PyNum) → ℕ → Stats → PyVal → TrainResult
  | [], _, _, tl =>
      { optSteps := [], reductions := [], cause := .exhausted, train_loss := tl }
  | (lossv, gnormv) :: rest, idx, st, tl =>
      if cfg.num_steps < idx then
        { optSteps := [], reductions := [], cause := .budget, train_loss := tl }
      else
        let st1 := stAcc st lossv gnormv
        if idx % cfg.report_interval = 0 then
          let r := mkRed cfg env idx st1
          if 999 < idx ∧ divergenceBad r.mean = true then
            { optSteps := [idx], reductions := [r], cause := .diverged,
              train_loss := .tensor r.mean }
          else
            let R := trainLoop cfg env rest (idx + 1) Stats.zero (.tensor r.mean)
            { optSteps := idx :: R.optSteps, reductions := r :: R.reductions,
              cause := R.cause, train_loss := R.train_loss }
        else
          let R := trainLoop cfg env rest (idx + 1) st1 tl
          { optSteps := idx :: R.optSteps, reductions := R.reductions,
            cause := R.cause, train_loss := R.train_loss }

/-- One `train` execution: `train_loss = -1` (a plain Python int), then the
loop starting at `batch_idx = start_step + 1` with zeroed statistics. -/
def train (cfg : TrainConfig) (env : TrainEnv) (data : List (PyNum × PyNum))
    (start_step : ℕ) : TrainResult :=
  trainLoop cfg env data (start_step + 1) Stats.zero (.pyInt (-1))

/-- The value `train` hands back to `run`: the final return expression
applied to the final `train_loss` variable. -/
def trainRet (R : TrainResult) : Except PyErr PyVal := trainReturn R.train_loss

/-- The `train_loss` variable after a run whose reduction events are the
given list, starting from initial value `tl`: each boundary overwrites it
with the 0-dim tensor holding that boundary's reduced mean. -/
def lastMeanOr (tl : PyVal) : List Reduction → PyVal
  | [] => tl
  | r :: rest => lastMeanOr (.tensor r.mean) rest

/-- Reduced mean loss of the last reduction event (NaN if there is none). -/
def lastMeanD : List Reduction → PyNum
  | [] => .nan
  | [r] => r.mean
  | _ :: r' :: rest => lastMeanD (r' :: rest)

/-- Step index of the last reduction event (0 if there is none). -/
def lastIdxD : List Reduction → ℕ
  | [] => 0
  | [r] => r.idx
  | _ :: r' :: rest => lastIdxD (r' :: rest)

/-- Whether a reduction event satisfies the divergence-guard condition:
step index strictly above 999 and reduced mean loss NaN or above 6. -/
def divTrigger (r : Reduction) : Bool := decide (999 < r.idx) && divergenceBad r.mean

/-- The last reduction event of the run satisfies the guard condition. -/
def lastTrigger : List Reduction → Bool
  | [] => false
  | [r] => divTrigger r
  | _ :: r' :: rest => lastTrigger (r' :: rest)

/-- No reduction event before the last one satisfies the guard condition. -/
def noEarlyTrigger : List Reduction → Bool
  | [] => true
  | [_] => true
  | r :: r' :: rest => !divTrigger r && noEarlyTrigger (r' :: rest)

/-- Window bookkeeping of a reduction-event list for a loop entered at step
index `i` whose statistics counter currently holds `c`: each event's
pre-reduction count is `c` plus the steps taken since entry, each event
resets the statistics to zero, and events sit exactly on multiples of
`interval`, never skipping one. -/
def WindowChain (interval : ℕ) : ℕ → ℕ → List Reduction → Prop
  | _, _, [] => True
  | c, i, r :: rest =>
      r.pre.count = c + (r.idx + 1 - i) ∧ r.post = Stats.zero ∧
      r.idx % interval = 0 ∧ i ≤ r.idx ∧ r.idx < i + interval ∧
      WindowChain interval 0 (r.idx + 1) rest

/-- State of the coordinate search in `main`: the current best loss (set
once from the baseline trial) and the current adopted exponent vector
`mup_scale_vals`. -/
structure SearchState where
  best_loss : ℚ
  mup_scale_vals : List ℚ
  deriving DecidableEq

/-- Body of the `for sign in [-1, 1]` loop of `main` (main_training.py
lines 251-259): build the candidate from the current vector by setting
coordinate `j` to `start_val + sign * step`, run the trial, and on a strict
improvement over `best_loss` adopt the candidate vector.  The code updates
`mup_scale_vals` only; `best_loss` is not reassigned. -/
def signProbe (trial : List ℚ → ℚ) (step : ℚ) (j : ℕ) (start_val sign : ℚ)
    (st : SearchState) : SearchState :=
  let candidate := st.mup_scale_vals.set j (start_val + sign * step)
  let new_loss := trial candidate
  if new_loss < st.best_loss then { st with mup_scale_vals := candidate } else st

/-- Body of the `for j in range(len(mup_params))` loop for round `i`:
read `start_val = mup_scale_vals[j]` once, then probe sign `-1` and then
sign `+1` with step magnitude `2**(-i-1)`. -/
def paramStep (trial : List ℚ → ℚ) (i j : ℕ) (st : SearchState) : SearchState :=
  let start_val := st.mup_scale_vals.getD j 0
  let step := ((2 : ℚ) ^ (i + 1))⁻¹
  List.foldl (fun s sign => signProbe trial step j start_val sign s) st [-1, 1]

/-- One full round of the coordinate search over the six parameters. -/
def searchRound (trial : List ℚ → ℚ) (i : ℕ) (st : SearchState) : SearchState :=
  List.foldl (fun s j => paramStep trial i j s) st (List.range 6)

/-- The whole search of `main` (lines 241-263): evaluate the baseline at
the zero vector, then `mup_search_steps` rounds of probing.  `trial` is the
oracle abstracting `run(set_mups(mup_params, candidate, cfg), ...)`. -/
def coordinateSearch (trial : List ℚ → ℚ) (rounds : ℕ) : SearchState :=
  let st0 : SearchState := ⟨trial (List.replicate 6 0), List.replicate 6 0⟩
  List.foldl (fun s i => searchRound trial i s) st0 (List.range rounds)

/-- Trial oracle realising the specification's concrete scenario: baseline
loss 2.00, the negative probe of parameter index 2 at step magnitude 0.5
returns 1.80, the positive probe returns 2.10. -/
def trialC1 : List ℚ → ℚ := fun v =>
  if v = [0, 0, -(1/2), 0, 0, 0] then 9/5
  else if v = [0, 0, 1/2, 0, 0, 0] then 21/10
  else 2

/-- Trial oracle whose every candidate diverges and reports the sentinel. -/
def trialSentinel : List ℚ → ℚ := fun _ => 100

/-- Peer oracle for a single-worker world (zero peer contribution) with a
constant elapsed-time reading of 2 at every boundary. -/
def envZero : TrainEnv := ⟨fun _ => Stats.zero, fun _ => 2⟩

/-- Configuration of a trial that diverges by threshold: resuming at step
999, the first batch is step 1000, a reporting boundary, and its reduced
mean loss 70 exceeds 6. -/
noncomputable def cfgDiv : TrainConfig :=
  { num_steps := 2000, report_interval := 10, batch_size := 1, seq_length := 1,
    learning_rate := 1, grad_clip_thresh := 1, seed := 0,
    mup_explore_range := 1, mup_search_steps := 0,
    mup_emb_scale := 1, mup_head_scale := 1, mup_ffn_init := 1,
    mup_attn_init := 1, mup_attn_temp := 1, mup_lr_dscale := 1 }

/-- Data for the diverging trial: one batch with per-step loss 70. -/
def dataDiv : List (PyNum × PyNum) := [(.val 70, .val 1)]

/-- Configuration for a resumed run with report interval 10. -/
noncomputable def cfgResume : TrainConfig :=
  { cfgDiv with num_steps := 100, report_interval := 10 }

/-- Data for the resumed run: 15 batches of per-step loss 1, which with
`start_step = 5` occupy step indices 6 through 20. -/
def dataResume : List (PyNum × PyNum) := List.replicate 15 (.val 1, .val 1)

/-- Configuration for a short completed run: 4 steps, boundary every 2. -/
noncomputable def cfgShort : TrainConfig :=
  { cfgDiv with num_steps := 4, report_interval := 2 }

/-- Data for the short completed run: 4 batches of per-step loss 2. -/
def dataShort : List (PyNum × PyNum) := List.replicate 4 (.val 2, .val 1)

/-- Configuration for a run that ends before any reporting boundary. -/
noncomputable def cfgEarly : TrainConfig :=
  { cfgDiv with num_steps := 5, report_interval := 100 }

/-- Data for the early-exhausted run: 5 batches. -/
def dataEarly : List (PyNum × PyNum) := List.replicate 5 (.val 1, .val 1)

/-- Configuration for the throughput check: batch size 2, sequence length
4, boundary every 2 steps (elapsed reading 2 gives a step time of 1). -/
noncomputable def cfgThr : TrainConfig :=
  { cfgDiv with num_steps := 10, report_interval := 2, batch_size := 2, seq_length := 4 }

/-- Data for the throughput run: 2 batches. -/
def dataThr : List (PyNum × PyNum) := List.replicate 2 (.val 1, .val 1)

end FmsFsdp

/-! ### General lemmas about the embedded training loop -/

namespace FmsFsdp

theorem trainLoop_train_loss (cfg : TrainConfig) (env : TrainEnv) :
    ∀ (data : List (PyNum × PyNum)) (idx : ℕ) (st : Stats) (tl : PyVal),
      (trainLoop cfg env data idx st tl).train_loss =
        lastMeanOr tl (trainLoop cfg env data idx st tl).reductions := by
  intro data
  induction data with
  | nil => intro idx st tl; rfl
  | cons d rest ih =>
    intro idx st tl
    obtain ⟨lossv, gnormv⟩ := d
    simp only [trainLoop]
    split_ifs with h1 h2 h3
    · rfl
    · rfl
    · simp only [lastMeanOr]
      exact ih _ _ _
    · exact ih _ _ _

theorem trainLoop_guard (cfg : TrainConfig) (env : TrainEnv) :
    ∀ (data : List (PyNum × PyNum)) (idx : ℕ) (st : Stats) (tl : PyVal),
      noEarlyTrigger (trainLoop cfg env data idx st tl).reductions = true ∧
      ((trainLoop cfg env data idx st tl).cause = .diverged ↔
        lastTrigger (trainLoop cfg env data idx st tl).reductions = true) := by
  intro data
  induction data with
  | nil =>
    intro idx st tl
    exact ⟨rfl, by simp [trainLoop, lastTrigger]⟩
  | cons d rest ih =>
    intro idx st tl
    obtain ⟨lossv, gnormv⟩ := d
    simp only [trainLoop]
    split_ifs with h1 h2 h3
    · exact ⟨rfl, by simp [lastTrigger]⟩
    · refine ⟨rfl, ?_⟩
      have h4 : divTrigger (mkRed cfg env idx (stAcc st lossv gnormv)) = true := by
        simp [divTrigger, mkRed] at h3 ⊢
        exact h3
      simp [lastTrigger, h4]
    · set R := trainLoop cfg env rest (idx + 1) Stats.zero
        (PyVal.tensor (mkRed cfg env idx (stAcc st lossv gnormv)).mean) with hR
      obtain ⟨ihE, ihI⟩ := ih (idx + 1) Stats.zero
        (PyVal.tensor (mkRed cfg env idx (stAcc st lossv gnormv)).mean)
      rw [← hR] at ihE ihI
      have hdt : divTrigger (mkRed cfg env idx (stAcc st lossv gnormv)) = false := by
        simp only [divTrigger, mkRed]
        rw [Bool.and_eq_false_iff]
        by_cases h : 999 < idx
        · right
          cases hb : divergenceBad (reducedMean ((stAcc st lossv gnormv).add (env.peers idx))) with
          | false => rfl
          | true => exact absurd ⟨h, by simp [mkRed, hb]⟩ h3
        · left; simpa using h
      rcases hRr : R.reductions with _ | ⟨r', rs⟩
      · constructor
        · simp [noEarlyTrigger]
        · have hnc : ¬ R.cause = TermCause.diverged := by
            rw [ihI, hRr]; simp [lastTrigger]
          simp only [lastTrigger]
          constructor
          · intro hc; exact absurd hc hnc
          · intro ht
            rw [hdt] at ht
            exact absurd ht (by simp)
      · constructor
        · simp only [noEarlyTrigger, Bool.and_eq_true, Bool.not_eq_true']
          exact ⟨hdt, by rw [hRr] at ihE; exact ihE⟩
        · simp only [lastTrigger]
          rw [hRr] at ihI
          simpa [lastTrigger] using ihI
    · exact ih _ _ _

theorem trainLoop_bounds (cfg : TrainConfig) (env : TrainEnv) :
    ∀ (data : List (PyNum × PyNum)) (idx : ℕ) (st : Stats) (tl : PyVal),
      (∀ n ∈ (trainLoop cfg env data idx st tl).optSteps, idx ≤ n) ∧
      (∀ r ∈ (trainLoop cfg env data idx st tl).reductions, idx ≤ r.idx) := by
  intro data
  induction data with
  | nil => intro idx st tl; simp [trainLoop]
  | cons d rest ih =>
    intro idx st tl
    obtain ⟨lossv, gnormv⟩ := d
    simp only [trainLoop]
    split_ifs with h1 h2 h3
    · simp
    · simp [mkRed]
    · obtain ⟨ihO, ihR⟩ := ih (idx + 1) Stats.zero
        (PyVal.tensor (mkRed cfg env idx (stAcc st lossv gnormv)).mean)
      constructor
      · intro n hn
        simp only [List.mem_cons] at hn
        rcases hn with rfl | hn
        · exact le_refl _
        · exact le_trans (Nat.le_succ idx) (ihO n hn)
      · intro r hr
        simp only [List.mem_cons] at hr
        rcases hr with rfl | hr
        · simp [mkRed]
        · exact le_trans (Nat.le_succ idx) (ihR r hr)
    · obtain ⟨ihO, ihR⟩ := ih (idx + 1) (stAcc st lossv gnormv) tl
      constructor
      · intro n hn
        simp only [List.mem_cons] at hn
        rcases hn with rfl | hn
        · exact le_refl _
        · exact le_trans (Nat.le_succ idx) (ihO n hn)
      · intro r hr
        exact le_trans (Nat.le_succ idx) (ihR r hr)

theorem lastIdxD_mem : ∀ (l : List Reduction), l ≠ [] → ∃ r ∈ l, lastIdxD l = r.idx := by
  intro l
  induction l with
  | nil => simp
  | cons r rest ih =>
    intro _
    cases rest with
    | nil => exact ⟨r, by simp, rfl⟩
    | cons r' rs =>
      obtain ⟨s, hs, he⟩ := ih (by simp)
      exact ⟨s, List.mem_cons_of_mem _ hs, by simpa [lastIdxD] using he⟩

theorem lastTrigger_ne_nil {l : List Reduction} (h : lastTrigger l = true) : l ≠ [] := by
  intro h0; rw [h0] at h; simp [lastTrigger] at h

theorem trainLoop_opt_le (cfg : TrainConfig) (env : TrainEnv) :
    ∀ (data : List (PyNum × PyNum)) (idx : ℕ) (st : Stats) (tl : PyVal),
      lastTrigger (trainLoop cfg env data idx st tl).reductions = true →
      ∀ n ∈ (trainLoop cfg env data idx st tl).optSteps,
        n ≤ lastIdxD (trainLoop cfg env data idx st tl).reductions := by
  intro data
  induction data with
  | nil => intro idx st tl h; simp [trainLoop, lastTrigger] at h
  | cons d rest ih =>
    intro idx st tl
    obtain ⟨lossv, gnormv⟩ := d
    simp only [trainLoop]
    split_ifs with h1 h2 h3
    · intro h; simp [lastTrigger] at h
    · intro _ n hn
      simp only [List.mem_singleton] at hn
      subst hn
      simp [lastIdxD, mkRed]
    · set R := trainLoop cfg env rest (idx + 1) Stats.zero
        (PyVal.tensor (mkRed cfg env idx (stAcc st lossv gnormv)).mean) with hR
      intro ht n hn
      have ht' : lastTrigger (mkRed cfg env idx (stAcc st lossv gnormv) :: R.reductions)
          = true := ht
      have hn' : n ∈ idx :: R.optSteps := hn
      show n ≤ lastIdxD (mkRed cfg env idx (stAcc st lossv gnormv) :: R.reductions)
      rcases hRr : R.reductions with _ | ⟨r', rs⟩
      · rw [hRr] at ht'
        simp only [lastTrigger, divTrigger] at ht'
        rw [Bool.and_eq_true] at ht'
        exact absurd ⟨of_decide_eq_true ht'.1, ht'.2⟩ h3
      · rw [hRr] at ht'
        have hlast : lastTrigger R.reductions = true := by
          rw [hRr]; simpa [lastTrigger] using ht'
        have hne : R.reductions ≠ [] := lastTrigger_ne_nil hlast
        obtain ⟨s, hs, he⟩ := lastIdxD_mem R.reductions hne
        have hsb : idx + 1 ≤ s.idx :=
          (trainLoop_bounds cfg env rest (idx + 1) Stats.zero
            (PyVal.tensor (mkRed cfg env idx (stAcc st lossv gnormv)).mean)).2 s hs
        have hgoal : lastIdxD (mkRed cfg env idx (stAcc st lossv gnormv) :: r' :: rs) =
            lastIdxD (r' :: rs) := by
          simp [lastIdxD]
        rw [hgoal]
        simp only [List.mem_cons] at hn'
        rcases hn' with rfl | hn'
        · rw [hRr] at he; omega
        · have h5 := ih (idx + 1) Stats.zero
            (PyVal.tensor (mkRed cfg env idx (stAcc st lossv gnormv)).mean) hlast n hn'
          have h6 : n ≤ lastIdxD R.reductions := h5
          rw [hRr] at h6
          exact h6
    · set R := trainLoop cfg env rest (idx + 1) (stAcc st lossv gnormv) tl with hR
      intro ht n hn
      have ht' : lastTrigger R.reductions = true := ht
      have hn' : n ∈ idx :: R.optSteps := hn
      show n ≤ lastIdxD R.reductions
      have hne : R.reductions ≠ [] := lastTrigger_ne_nil ht'
      obtain ⟨s, hs, he⟩ := lastIdxD_mem R.reductions hne
      have hsb : idx + 1 ≤ s.idx :=
        (trainLoop_bounds cfg env rest (idx + 1) (stAcc st lossv gnormv) tl).2 s hs
      simp only [List.mem_cons] at hn'
      rcases hn' with rfl | hn'
      · omega
      · exact ih (idx + 1) (stAcc st lossv gnormv) tl ht' n hn'

theorem windowChain_shift {interval : ℕ} :
    ∀ {l : List Reduction} {c i : ℕ}, i % interval ≠ 0 →
      WindowChain interval (c + 1) (i + 1) l → WindowChain interval c i l := by
  intro l
  cases l with
  | nil => intro c i _ _; trivial
  | cons r rest =>
    intro c i hmod h
    obtain ⟨hcount, hpost, hm, hle, hlt, hrest⟩ := h
    refine ⟨by omega, hpost, hm, by omega, ?_, hrest⟩
    rcases Nat.lt_or_ge r.idx (i + interval) with h | h
    · exact h
    · have hx : r.idx = i + interval := by omega
      rw [hx, Nat.add_mod_right] at hm
      exact absurd hm hmod

theorem trainLoop_window (cfg : TrainConfig) (env : TrainEnv)
    (hpos : 0 < cfg.report_interval) :
    ∀ (data : List (PyNum × PyNum)) (idx : ℕ) (st : Stats) (tl : PyVal),
      WindowChain cfg.report_interval st.count idx
        (trainLoop cfg env data idx st tl).reductions := by
  intro data
  induction data with
  | nil => intro idx st tl; trivial
  | cons d rest ih =>
    intro idx st tl
    obtain ⟨lossv, gnormv⟩ := d
    simp only [trainLoop]
    split_ifs with h1 h2 h3
    · trivial
    · refine ⟨?_, rfl, h2, le_refl _,
        show idx < idx + cfg.report_interval by omega, trivial⟩
      simp [mkRed, stAcc]
    · refine ⟨?_, rfl, h2, le_refl _,
        show idx < idx + cfg.report_interval by omega, ?_⟩
      · simp [mkRed, stAcc]
      · exact ih (idx + 1) Stats.zero
          (PyVal.tensor (mkRed cfg env idx (stAcc st lossv gnormv)).mean)
    · have h := ih (idx + 1) (stAcc st lossv gnormv) tl
      have h' : WindowChain cfg.report_interval (st.count + 1) (idx + 1)
          (trainLoop cfg env rest (idx + 1) (stAcc st lossv gnormv) tl).reductions := h
      exact windowChain_shift h2 h'

theorem windowChain_consec {interval : ℕ} :
    ∀ {l : List Reduction} {c i : ℕ}, WindowChain interval c i l →
      List.Chain' (fun a b => b.pre.count = interval ∧ b.idx = a.idx + interval) l := by
  intro l
  induction l with
  | nil => intro c i _; exact List.chain'_nil
  | cons r rest ih =>
    intro c i h
    obtain ⟨_, _, hm, _, _, hrest⟩ := h
    cases rest with
    | nil => simp
    | cons r' rs =>
      rw [List.chain'_cons]
      refine ⟨?_, ih hrest⟩
      obtain ⟨hcount', -, hm', hle', hlt', -⟩ := id hrest
      have hdx : r'.idx = r.idx + interval := by
        have hd1 : interval ∣ r.idx := Nat.dvd_of_mod_eq_zero hm
        have hd2 : interval ∣ r'.idx := Nat.dvd_of_mod_eq_zero hm'
        have hd3 : interval ∣ (r'.idx - r.idx) := Nat.dvd_sub' hd2 hd1
        have hd4 : 0 < r'.idx - r.idx := by omega
        have hd5 : interval ≤ r'.idx - r.idx := Nat.le_of_dvd hd4 hd3
        omega
      exact ⟨by omega, hdx⟩

theorem trainLoop_post_zero (cfg : TrainConfig) (env : TrainEnv) :
    ∀ (data : List (PyNum × PyNum)) (idx : ℕ) (st : Stats) (tl : PyVal),
      ∀ r ∈ (trainLoop cfg env data idx st tl).reductions, r.post = Stats.zero := by
  intro data
  induction data with
  | nil => intro idx st tl; simp [trainLoop]
  | cons d rest ih =>
    intro idx st tl
    obtain ⟨lossv, gnormv⟩ := d
    simp only [trainLoop]
    split_ifs with h1 h2 h3
    · simp
    · simp [mkRed]
    · intro r hr
      have hr' : r ∈ mkRed cfg env idx (stAcc st lossv gnormv) ::
          (trainLoop cfg env rest (idx + 1) Stats.zero
            (PyVal.tensor (mkRed cfg env idx (stAcc st lossv gnormv)).mean)).reductions := hr
      simp only [List.mem_cons] at hr'
      rcases hr' with rfl | hr'
      · rfl
      · exact ih (idx + 1) Stats.zero _ r hr'
    · intro r hr
      exact ih (idx + 1) (stAcc st lossv gnormv) tl r hr

theorem trainLoop_throughput (cfg : TrainConfig) (env : TrainEnv) :
    ∀ (data : List (PyNum × PyNum)) (idx : ℕ) (st : Stats) (tl : PyVal),
      ∀ r ∈ (trainLoop cfg env data idx st tl).reductions,
        r.throughput = current_throughput cfg.batch_size cfg.seq_length
          (env.elapsed r.idx / (cfg.report_interval : ℚ)) := by
  intro data
  induction data with
  | nil => intro idx st tl; simp [trainLoop]
  | cons d rest ih =>
    intro idx st tl
    obtain ⟨lossv, gnormv⟩ := d
    simp only [trainLoop]
    split_ifs with h1 h2 h3
    · simp
    · simp [mkRed]
    · intro r hr
      have hr' : r ∈ mkRed cfg env idx (stAcc st lossv gnormv) ::
          (trainLoop cfg env rest (idx + 1) Stats.zero
            (PyVal.tensor (mkRed cfg env idx (stAcc st lossv gnormv)).mean)).reductions := hr
      simp only [List.mem_cons] at hr'
      rcases hr' with rfl | hr'
      · simp [mkRed]
      · exact ih (idx + 1) Stats.zero _ r hr'
    · intro r hr
      exact ih (idx + 1) (stAcc st lossv gnormv) tl r hr

theorem lastTrigger_facts : ∀ (l : List Reduction), lastTrigger l = true →
    999 < lastIdxD l ∧ divergenceBad (lastMeanD l) = true := by
  intro l
  induction l with
  | nil => intro h; simp [lastTrigger] at h
  | cons r rest ih =>
    cases rest with
    | nil =>
      intro h
      simp only [lastTrigger, divTrigger, Bool.and_eq_true] at h
      exact ⟨of_decide_eq_true h.1, h.2⟩
    | cons r' rs =>
      intro h
      simp only [lastTrigger] at h
      simpa [lastIdxD, lastMeanD] using ih h

theorem lastMeanOr_eq : ∀ (l : List Reduction) (tl : PyVal), l ≠ [] →
    lastMeanOr tl l = .tensor (lastMeanD l) := by
  intro l
  induction l with
  | nil => simp
  | cons r rest ih =>
    intro tl _
    cases rest with
    | nil => rfl
    | cons r' rs =>
      simp only [lastMeanOr, lastMeanD]
      exact ih (.tensor r.mean) (by simp)

theorem trainReturn_tensor (m : PyNum) :
    trainReturn (.tensor m) = .ok (if m.isNan then .pyInt 100 else .pyFloat m) := by
  cases m <;> rfl

theorem current_throughput_eq_spec_one (b s : ℕ) (t : ℚ) :
    current_throughput b s t = spec_throughput b s 1 t := by
  simp [current_throughput, spec_throughput, Nat.cast_mul]

end FmsFsdp

/-! ### Claim theorems -/

namespace FmsFsdp

/-- C1 (code evaluated at the failing input): in the specification's own
concrete scenario — baseline loss 2.00, round 0, parameter index 2, step
magnitude 0.5, negative probe loss 1.80, positive probe loss 2.10 — the
embedded probe step adopts the negative candidate as the best vector but
leaves `best_loss` at the baseline value 2: the code never reassigns
`best_loss`, while the claim requires the best loss to become 1.80. -/
theorem coordinate_search_best_loss_never_updated :
    paramStep trialC1 0 2 ⟨2, List.replicate 6 0⟩ = ⟨2, [0, 0, -(1/2), 0, 0, 0]⟩ ∧
    (2 : ℚ) ≠ 9/5 := by
  constructor
  · norm_num [paramStep, signProbe, trialC1, List.replicate, List.set, List.getD, List.get?]
  · norm_num

/-- C2 counterexample: a run whose divergence guard fires at step 1000
because the reduced mean loss 70 exceeds the threshold returns the Python
float 70.0 to its caller, not the sentinel 100. -/
theorem divergence_guard_return_not_sentinel :
    (train cfgDiv envZero dataDiv 999).cause = .diverged ∧
    trainRet (train cfgDiv envZero dataDiv 999) = .ok (.pyFloat (.val 70)) ∧
    trainRet (train cfgDiv envZero dataDiv 999) ≠ .ok (.pyInt 100) := by
  have h1 : (train cfgDiv envZero dataDiv 999).cause = .diverged := by
    norm_num [train, trainLoop, stAcc, mkRed, cfgDiv, dataDiv, envZero, Stats.zero,
      Stats.add, PyNum.add, reducedMean, divergenceBad, PyNum.gtQ, PyNum.isNan,
      current_throughput, pyTrunc]
  have h2 : trainRet (train cfgDiv envZero dataDiv 999) = .ok (.pyFloat (.val 70)) := by
    norm_num [train, trainLoop, trainRet, trainReturn, torch_isnan, item, stAcc, mkRed,
      cfgDiv, dataDiv, envZero, Stats.zero, Stats.add, PyNum.add, reducedMean,
      divergenceBad, PyNum.gtQ, PyNum.isNan, current_throughput, pyTrunc]
  refine ⟨h1, h2, ?_⟩
  rw [h2]
  intro hc
  exact PyVal.noConfusion (Except.ok.inj hc)

/-- C2 (amended): whenever the training loop terminates because the
divergence guard fired, the final reduction event has step index above 999
and a bad mean loss, and the value returned to the caller is the sentinel
100 exactly when that final reduced mean loss is NaN; when the guard fired
because the mean loss exceeded 6 (a finite value), the loop returns that
mean loss itself, not the sentinel. -/
theorem divergence_return_value (cfg : TrainConfig) (env : TrainEnv)
    (data : List (PyNum × PyNum)) (start_step : ℕ)
    (h : (train cfg env data start_step).cause = .diverged) :
    999 < lastIdxD (train cfg env data start_step).reductions ∧
    divergenceBad (lastMeanD (train cfg env data start_step).reductions) = true ∧
    trainRet (train cfg env data start_step) =
      .ok (if (lastMeanD (train cfg env data start_step).reductions).isNan
        then .pyInt 100
        else .pyFloat (lastMeanD (train cfg env data start_step).reductions)) := by
  obtain ⟨hE, hI⟩ := trainLoop_guard cfg env data (start_step + 1) Stats.zero (.pyInt (-1))
  have ht : lastTrigger (train cfg env data start_step).reductions = true := hI.mp h
  obtain ⟨hidx, hbad⟩ := lastTrigger_facts _ ht
  have hne : (train cfg env data start_step).reductions ≠ [] := lastTrigger_ne_nil ht
  have htl : (train cfg env data start_step).train_loss =
      .tensor (lastMeanD (train cfg env data start_step).reductions) := by
    have h1 := trainLoop_train_loss cfg env data (start_step + 1) Stats.zero (.pyInt (-1))
    have h2 : (train cfg env data start_step).train_loss =
        lastMeanOr (.pyInt (-1)) (train cfg env data start_step).reductions := h1
    rw [h2, lastMeanOr_eq _ _ hne]
  refine ⟨hidx, hbad, ?_⟩
  show trainReturn (train cfg env data start_step).train_loss = _
  rw [htl, trainReturn_tensor]

theorem divergence_return_value_witness :
    999 < lastIdxD (train cfgDiv envZero dataDiv 999).reductions ∧
    divergenceBad (lastMeanD (train cfgDiv envZero dataDiv 999).reductions) = true ∧
    trainRet (train cfgDiv envZero dataDiv 999) =
      .ok (if (lastMeanD (train cfgDiv envZero dataDiv 999).reductions).isNan
        then .pyInt 100
        else .pyFloat (lastMeanD (train cfgDiv envZero dataDiv 999).reductions)) :=
  divergence_return_value cfgDiv envZero dataDiv 999
    (by norm_num [train, trainLoop, stAcc, mkRed, cfgDiv, dataDiv, envZero, Stats.zero,
      Stats.add, PyNum.add, reducedMean, divergenceBad, PyNum.gtQ, PyNum.isNan,
      current_throughput, pyTrunc])

/-- C3: the divergence guard ends the training loop exactly at the first
reporting boundary whose step index exceeds 999 and whose reduced mean loss
is NaN or above 6 — no earlier reduction event satisfies that condition,
the loop's cause is `diverged` precisely when the final reduction event
satisfies it, and in that case no optimizer step has an index beyond that
final boundary. -/
theorem divergence_guard_fires_first (cfg : TrainConfig) (env : TrainEnv)
    (data : List (PyNum × PyNum)) (start_step : ℕ) :
    noEarlyTrigger (train cfg env data start_step).reductions = true ∧
    ((train cfg env data start_step).cause = .diverged ↔
      lastTrigger (train cfg env data start_step).reductions = true) ∧
    ((train cfg env data start_step).cause = .diverged →
      ∀ n ∈ (train cfg env data start_step).optSteps,
        n ≤ lastIdxD (train cfg env data start_step).reductions) := by
  obtain ⟨hE, hI⟩ := trainLoop_guard cfg env data (start_step + 1) Stats.zero (.pyInt (-1))
  exact ⟨hE, hI, fun hc =>
    trainLoop_opt_le cfg env data (start_step + 1) Stats.zero (.pyInt (-1)) (hI.mp hc)⟩

theorem divergence_guard_fires_first_witness :
    (train cfgDiv envZero dataDiv 999).cause = .diverged ∧
    (∀ n ∈ (train cfgDiv envZero dataDiv 999).optSteps,
      n ≤ lastIdxD (train cfgDiv envZero dataDiv 999).reductions) :=
  ⟨((divergence_guard_fires_first cfgDiv envZero dataDiv 999).2.1).mpr
      (by norm_num [train, trainLoop, stAcc, mkRed, cfgDiv, dataDiv, envZero, Stats.zero,
        Stats.add, PyNum.add, reducedMean, divergenceBad, PyNum.gtQ, PyNum.isNan,
        current_throughput, pyTrunc, lastTrigger, divTrigger]),
   (divergence_guard_fires_first cfgDiv envZero dataDiv 999).2.2
      (((divergence_guard_fires_first cfgDiv envZero dataDiv 999).2.1).mpr
        (by norm_num [train, trainLoop, stAcc, mkRed, cfgDiv, dataDiv, envZero, Stats.zero,
          Stats.add, PyNum.add, reducedMean, divergenceBad, PyNum.gtQ, PyNum.isNan,
          current_throughput, pyTrunc, lastTrigger, divTrigger]))⟩

/-- C4 (code evaluated at the failing input): a completed 4-step trial
whose reporting windows have mean loss 2 makes `train` return the plain
Python float 2.0; the `.item()` call `run` then applies to that plain
float raises `AttributeError` instead of passing the value through. -/
theorem run_item_raises_attribute_error :
    trainRet (train cfgShort envZero dataShort 0) = .ok (.pyFloat (.val 2)) ∧
    run_item (trainRet (train cfgShort envZero dataShort 0)) = .error .attributeError := by
  constructor <;>
    norm_num [train, trainLoop, trainRet, trainReturn, torch_isnan, item, run_item, stAcc,
      mkRed, cfgShort, cfgDiv, dataShort, envZero, Stats.zero, Stats.add, PyNum.add,
      reducedMean, divergenceBad, PyNum.gtQ, PyNum.isNan, current_throughput, pyTrunc,
      List.replicate]

/-- C5 counterexample: against a finite best loss of 200 (a value a
threshold-diverging trial can produce, since such a trial returns its own
mean loss), a candidate trial returning the divergence sentinel 100 IS
accepted: the probe adopts the sentinel candidate as the best vector. -/
theorem sentinel_candidate_accepted_over_large_best :
    (signProbe trialSentinel (1/2) 0 0 (-1) ⟨200, List.replicate 6 0⟩).mup_scale_vals =
      [-(1/2), 0, 0, 0, 0, 0] ∧
    (signProbe trialSentinel (1/2) 0 0 (-1) ⟨200, List.replicate 6 0⟩).mup_scale_vals ≠
      List.replicate 6 0 := by
  constructor <;>
    norm_num [signProbe, trialSentinel, List.replicate, List.set]

/-- C5 (amended): a candidate trial returning the divergence sentinel 100
is never accepted by the probe step when the current best loss is at most
100 (in particular over any ordinary finite cross-entropy baseline), and
the probe leaves the search state unchanged and simply moves on — the
search never aborts. -/
theorem sentinel_never_accepted_when_best_le_100 (trial : List ℚ → ℚ)
    (step : ℚ) (j : ℕ) (start_val sign : ℚ) (st : SearchState)
    (hs : trial (st.mup_scale_vals.set j (start_val + sign * step)) = 100)
    (hb : st.best_loss ≤ 100) :
    signProbe trial step j start_val sign st = st := by
  simp only [signProbe]
  rw [hs]
  exact if_neg (not_lt.mpr hb)

theorem sentinel_never_accepted_witness :
    trialSentinel ((List.replicate 6 (0 : ℚ)).set 0 (0 + (-1) * (1/2))) = 100 ∧
    ((⟨2, List.replicate 6 0⟩ : SearchState).best_loss ≤ 100) ∧
    signProbe trialSentinel (1/2) 0 0 (-1) ⟨2, List.replicate 6 0⟩ =
      ⟨2, List.replicate 6 0⟩ :=
  ⟨rfl, by norm_num,
    sentinel_never_accepted_when_best_le_100 trialSentinel (1/2) 0 0 (-1)
      ⟨2, List.replicate 6 0⟩ rfl (by norm_num)⟩

/-- C6: applying the scaling rule to the all-zero exponent vector returns a
configuration whose six muP parameter values all equal the base values:
`base * 2^(0 * explore_ratio) = base`. -/
theorem set_mups_zero_vector_identity (explore_ratio : ℝ) (cfg : TrainConfig) (k : MupKey) :
    getMup (set_mups explore_ratio (fun _ => 0) cfg).new_cfg k = getMup cfg k := by
  cases k <;>
    simp [set_mups, set_mups_loop, mup_params, setMupAttr, getMup, zero_mul,
      Real.rpow_zero, mul_one]

/-- C7: `set_mups` never mutates the base configuration (the store's base
object is returned unchanged), and the derived copy differs from the base
in exactly the six muP fields, each scaled by `2^(exponent*explore_ratio)`;
every other field of the copy equals the base's field. -/
theorem set_mups_frame (explore_ratio : ℝ) (v : MupKey → ℝ) (cfg : TrainConfig) :
    (set_mups explore_ratio v cfg).cfg = cfg ∧
    (∀ k, getMup (set_mups explore_ratio v cfg).new_cfg k =
      getMup cfg k * (2 : ℝ) ^ (v k * explore_ratio)) ∧
    (set_mups explore_ratio v cfg).new_cfg.num_steps = cfg.num_steps ∧
    (set_mups explore_ratio v cfg).new_cfg.report_interval = cfg.report_interval ∧
    (set_mups explore_ratio v cfg).new_cfg.batch_size = cfg.batch_size ∧
    (set_mups explore_ratio v cfg).new_cfg.seq_length = cfg.seq_length ∧
    (set_mups explore_ratio v cfg).new_cfg.learning_rate = cfg.learning_rate ∧
    (set_mups explore_ratio v cfg).new_cfg.grad_clip_thresh = cfg.grad_clip_thresh ∧
    (set_mups explore_ratio v cfg).new_cfg.seed = cfg.seed ∧
    (set_mups explore_ratio v cfg).new_cfg.mup_explore_range = cfg.mup_explore_range ∧
    (set_mups explore_ratio v cfg).new_cfg.mup_search_steps = cfg.mup_search_steps := by
  refine ⟨?_, fun k => ?_, ?_, ?_, ?_, ?_, ?_, ?_, ?_, ?_, ?_⟩
  · simp [set_mups, set_mups_loop, mup_params, setMupAttr]
  · cases k <;> simp [set_mups, set_mups_loop, mup_params, setMupAttr, getMup]
  all_goals simp [set_mups, set_mups_loop, mup_params, setMupAttr]

/-- C8 counterexample: resuming from a checkpoint at step 5 with report
interval 10, the first reduction happens at step 10 with a pre-reduction
step count of 5, strictly below the report interval, even though it is the
first of two reductions and not a final partial window. -/
theorem resumed_first_window_short_count :
    cfgResume.report_interval = 10 ∧
    (train cfgResume envZero dataResume 5).reductions.map
      (fun r => (r.idx, r.pre.count)) = [(10, 5), (20, 10)] := by
  constructor
  · norm_num [cfgResume, cfgDiv]
  · norm_num [train, trainLoop, stAcc, mkRed, cfgResume, cfgDiv, dataResume, envZero,
      Stats.zero, Stats.add, PyNum.add, reducedMean, divergenceBad, PyNum.gtQ, PyNum.isNan,
      current_throughput, pyTrunc, List.replicate]

/-- C8 (amended): after every reduction all three statistics components
are zero, and the pre-reduction step count of each reduction event equals
the number of steps since the later of `start_step` and the previous
boundary (`WindowChain`); consequently every window after the first has
pre-reduction count exactly `report_interval` — only the first window
after an unaligned resume can be shorter, and a final partial window never
gets a reduction at all. -/
theorem running_stats_window_invariant (cfg : TrainConfig) (env : TrainEnv)
    (data : List (PyNum × PyNum)) (start_step : ℕ)
    (hpos : 0 < cfg.report_interval) :
    (∀ r ∈ (train cfg env data start_step).reductions, r.post = Stats.zero) ∧
    WindowChain cfg.report_interval 0 (start_step + 1)
      (train cfg env data start_step).reductions ∧
    List.Chain' (fun a b => b.pre.count = cfg.report_interval ∧
      b.idx = a.idx + cfg.report_interval) (train cfg env data start_step).reductions := by
  have hw : WindowChain cfg.report_interval Stats.zero.count (start_step + 1)
      (trainLoop cfg env data (start_step + 1) Stats.zero (.pyInt (-1))).reductions :=
    trainLoop_window cfg env hpos data (start_step + 1) Stats.zero (.pyInt (-1))
  exact ⟨trainLoop_post_zero cfg env data (start_step + 1) Stats.zero (.pyInt (-1)),
    hw, windowChain_consec hw⟩

theorem running_stats_window_invariant_witness :
    0 < cfgResume.report_interval ∧
    ((∀ r ∈ (train cfgResume envZero dataResume 5).reductions, r.post = Stats.zero) ∧
      WindowChain cfgResume.report_interval 0 6
        (train cfgResume envZero dataResume 5).reductions ∧
      List.Chain' (fun a b => b.pre.count = cfgResume.report_interval ∧
        b.idx = a.idx + cfgResume.report_interval)
        (train cfgResume envZero dataResume 5).reductions) :=
  ⟨by norm_num [cfgResume, cfgDiv],
    running_stats_window_invariant cfgResume envZero dataResume 5
      (by norm_num [cfgResume, cfgDiv])⟩

/-- C9 (amended): the throughput figure computed at every reporting
boundary equals `int(batch_size * seq_length / step_time)` — that is, the
specification's formula with the `world_size` factor fixed to 1 (a per-GPU
figure, matching the code's own log label "token per gpu per sec"). -/
theorem throughput_per_gpu_formula (cfg : TrainConfig) (env : TrainEnv)
    (data : List (PyNum × PyNum)) (start_step : ℕ) :
    ∀ r ∈ (train cfg env data start_step).reductions,
      r.throughput = spec_throughput cfg.batch_size cfg.seq_length 1
        (env.elapsed r.idx / (cfg.report_interval : ℚ)) := by
  intro r hr
  rw [trainLoop_throughput cfg env data (start_step + 1) Stats.zero (.pyInt (-1)) r hr]
  exact current_throughput_eq_spec_one _ _ _

theorem throughput_per_gpu_formula_witness :
    ((train cfgThr envZero dataThr 0).reductions.getD 0 (mkRed cfgThr envZero 0 Stats.zero))
      ∈ (train cfgThr envZero dataThr 0).reductions ∧
    ((train cfgThr envZero dataThr 0).reductions.getD 0
        (mkRed cfgThr envZero 0 Stats.zero)).throughput =
      spec_throughput cfgThr.batch_size cfgThr.seq_length 1
        (envZero.elapsed ((train cfgThr envZero dataThr 0).reductions.getD 0
          (mkRed cfgThr envZero 0 Stats.zero)).idx / (cfgThr.report_interval : ℚ)) :=
  ⟨by norm_num [train, trainLoop, stAcc, mkRed, cfgThr, cfgDiv, dataThr, envZero, Stats.zero,
      Stats.add, PyNum.add, reducedMean, divergenceBad, PyNum.gtQ, PyNum.isNan,
      current_throughput, pyTrunc, List.replicate, List.getD],
   throughput_per_gpu_formula cfgThr envZero dataThr 0 _
     (by norm_num [train, trainLoop, stAcc, mkRed, cfgThr, cfgDiv, dataThr, envZero,
       Stats.zero, Stats.add, PyNum.add, reducedMean, divergenceBad, PyNum.gtQ, PyNum.isNan,
       current_throughput, pyTrunc, List.replicate, List.getD])⟩

/-- C9 counterexample: with batch size 2, sequence length 4 and a measured
per-step time of 1, the loop computes throughput 8, while the claimed
formula including a world-size factor of 2 gives 16. -/
theorem throughput_omits_world_size :
    (train cfgThr envZero dataThr 0).reductions.map (fun r => r.throughput) = [8] ∧
    spec_throughput cfgThr.batch_size cfgThr.seq_length 2
      (envZero.elapsed 2 / (cfgThr.report_interval : ℚ)) = 16 ∧
    (8 : ℤ) ≠ 16 := by
  refine ⟨?_, ?_, by norm_num⟩ <;>
    norm_num [train, trainLoop, stAcc, mkRed, cfgThr, cfgDiv, dataThr, envZero, Stats.zero,
      Stats.add, PyNum.add, reducedMean, divergenceBad, PyNum.gtQ, PyNum.isNan,
      current_throughput, spec_throughput, pyTrunc, List.replicate]

/-- C10 (code evaluated at the failing input): a run of 5 steps with
report interval 100 finishes before any reporting boundary, so the loss
accumulator still holds the plain Python int -1; the final check
`torch.isnan(train_loss)` then raises `TypeError` — the return expression
is not well-defined in this case. -/
theorem early_finish_isnan_type_error :
    (train cfgEarly envZero dataEarly 0).reductions = [] ∧
    (train cfgEarly envZero dataEarly 0).train_loss = .pyInt (-1) ∧
    trainRet (train cfgEarly envZero dataEarly 0) = .error .typeError := by
  refine ⟨?_, ?_, ?_⟩ <;>
    norm_num [train, trainLoop, trainRet, trainReturn, torch_isnan, item, stAcc, mkRed,
      cfgEarly, cfgDiv, dataEarly, envZero, Stats.zero, Stats.add, PyNum.add, reducedMean,
      divergenceBad, PyNum.gtQ, PyNum.isNan, current_throughput, pyTrunc, List.replicate]

end FmsFsdp
